import Mathlib

/-!
Verification of the step-execution engine of the ubuntu provisioning
scripts: a shallow embedding of `scripts/library/utilities.py`
(`run_one_command`, `run_many_arguments`, `min_python_version`) and
`scripts/library/classes.py` (`Environment`, `Labels`), followed by
theorems about the embedded definitions.

Modelling conventions:
- The operating system process boundary is an oracle
  `os : List String → ProcResult` mapping the argument vector passed to
  `subprocess.run` to the resulting process record.  The list of argument
  vectors actually handed to the oracle (the spawn log) is returned
  alongside each result so that statements about which processes were
  spawned, and in which order, can be made.  The `capture`, `std_in` and
  `std_out` parameters of `run_one_command` only wire the child process
  streams and are absorbed into the oracle.
- Python exceptions become `Except` errors; `sys.exit(1)` becomes a
  dedicated outcome constructor.
- Strings are lists of unicode code points, as in Python.
-/

/- Characters named by code point, used where a quote or control
character would otherwise appear as a literal. -/

def squoteChar : Char := Char.ofNat 39

def dquoteChar : Char := Char.ofNat 34

def bslashChar : Char := Char.ofNat 92

def nlChar : Char := Char.ofNat 10

def tabChar : Char := Char.ofNat 9

def crChar : Char := Char.ofNat 13

def vtChar : Char := Char.ofNat 11

def ffChar : Char := Char.ofNat 12

/-!
Model of `shlex.split` (CPython, posix mode, whitespace_split=True,
comments disabled), which `run_one_command` applies to every command
string.  Whitespace separates tokens; single quotes protect everything
up to the closing quote; double quotes protect everything except that a
backslash escapes a double quote or a backslash; outside quotes a
backslash escapes any single character.  An unclosed quote raises
`ValueError: No closing quotation`; a trailing backslash raises
`ValueError: No escaped character`.
-/

/-- The errors `shlex.split` can raise (both are `ValueError` in Python). -/
inductive SplitError
| noClosingQuotation
| noEscapedCharacter
deriving DecidableEq, Repr

/-- Lexer state of the shlex model: outside quotes, inside a single
quote, or inside a double quote. -/
inductive LexMode
| normal
| inSingle
| inDouble
deriving DecidableEq, Repr

/-- The whitespace characters of `shlex` (space, tab, carriage return,
line feed). -/
def shlexWs (c : Char) : Bool :=
  c = ' ' || c = tabChar || c = crChar || c = nlChar

/-- One pass of the shlex lexer.  `acc` is the token under construction,
`inTok` records whether a token is in progress (a closed pair of quotes
yields a token even when empty), `mode` is the quoting state. -/
def splitAux : List Char → List Char → Bool → LexMode → Except SplitError (List String)
| [], acc, inTok, mode =>
  match mode with
  | .normal => if inTok then .ok [String.mk acc] else .ok []
  | _ => .error .noClosingQuotation
| c :: rest, acc, inTok, mode =>
  match mode with
  | .inSingle =>
    if c = squoteChar then splitAux rest acc true .normal
    else splitAux rest (acc ++ [c]) inTok .inSingle
  | .inDouble =>
    if c = dquoteChar then splitAux rest acc true .normal
    else if c = bslashChar then
      match rest with
      | [] => .error .noEscapedCharacter
      | d :: rest2 =>
        if d = dquoteChar || d = bslashChar then
          splitAux rest2 (acc ++ [d]) inTok .inDouble
        else splitAux rest2 (acc ++ [bslashChar, d]) inTok .inDouble
    else splitAux rest (acc ++ [c]) inTok .inDouble
  | .normal =>
    if shlexWs c then
      if inTok then
        match splitAux rest [] false .normal with
        | .error e => .error e
        | .ok ts => .ok (String.mk acc :: ts)
      else splitAux rest [] false .normal
    else if c = squoteChar then splitAux rest acc true .inSingle
    else if c = dquoteChar then splitAux rest acc true .inDouble
    else if c = bslashChar then
      match rest with
      | [] => .error .noEscapedCharacter
      | d :: rest2 => splitAux rest2 (acc ++ [d]) true .normal
    else splitAux rest (acc ++ [c]) true .normal

/-- `shlex.split` on a command string. -/
def shlexSplit (s : String) : Except SplitError (List String) :=
  splitAux s.data [] false .normal

/-!
Model of Python `str.replace(old, new)` (all non-overlapping
occurrences, scanned left to right), used by `run_many_arguments` as
`cmd.replace(marker, target)`.  The scan is written with an explicit
fuel argument equal to the length of the scanned string, so that the
function is structurally recursive; each step consumes at least one
character, so the fuel never runs out on the inputs used.
-/

/-- `stripPre pat s` returns `some rest` when `s = pat ++ rest`. -/
def stripPre : List Char → List Char → Option (List Char)
| [], s => some s
| _ :: _, [] => none
| p :: ps, c :: cs => if p = c then stripPre ps cs else none

/-- Fueled left-to-right scan replacing each occurrence of `pat` by
`rep`. -/
def replaceGoF (pat rep : List Char) : Nat → List Char → List Char
| 0, s => s
| _ + 1, [] => []
| n + 1, c :: cs =>
  match stripPre pat (c :: cs) with
  | some rest => rep ++ replaceGoF pat rep n rest
  | none => c :: replaceGoF pat rep n cs

/-- Python `str.replace` on code-point lists.  An empty pattern
interleaves the replacement around every character, as in Python. -/
def pyReplaceL (s pat rep : List Char) : List Char :=
  match pat with
  | [] => rep ++ s.foldr (fun c acc => c :: (rep ++ acc)) []
  | _ :: _ => replaceGoF pat rep s.length s

/-- Python `str.replace` on strings. -/
def pyReplace (s pat rep : String) : String :=
  String.mk (pyReplaceL s.data pat.data rep.data)

/-!
`classes.Environment` and the command runner of `utilities.py`.
-/

/-- The record produced by `subprocess.run`: the exit code and the
captured standard output and standard error of the child process. -/
structure ProcResult where
  returncode : Int
  stdout : String
  stderr : String
deriving DecidableEq, Repr

/-- `classes.Environment`: minimum required Python version, the PASS and
FAIL display glyphs, the debug (dry-run) flag and the slot holding the
result of the last command run.  The filesystem path attributes (HOME,
UBUNTU, ...) live at the filesystem boundary and are not part of the
model; no claim depends on them. -/
structure Environment where
  MAJOR : Nat
  MINOR : Nat
  PASS : String
  FAIL : String
  DEBUG : Bool
  RESULT : Option ProcResult
deriving DecidableEq, Repr

/-- `Environment.__init__`: MAJOR 3, MINOR 10, the green check mark and
red cross glyphs with their ANSI color codes, DEBUG off, RESULT unset. -/
def Environment.init : Environment :=
  ⟨3, 10, "\x1b[0;32;49m✔\x1b[0m", "\x1b[0;31;49m✘\x1b[0m", false, none⟩

/-- `utilities.run_one_command`.  In debug (dry-run) mode the function
prints a trace containing `shlex.split(cmd)` — so tokenization still
happens and its ValueError still propagates — and returns PASS without
consulting the process oracle.  Otherwise it tokenizes the command,
spawns one child process (recorded in the spawn log), stores the raw
process record in `e.RESULT`, and returns FAIL on a non-zero exit code
and PASS on zero.  The value is the returned glyph, the environment
after the call, and the log of argument vectors spawned. -/
def run_one_command (os : List String → ProcResult) (e : Environment)
    (cmd : String) : Except SplitError (String × Environment × List (List String)) :=
  if e.DEBUG then
    match shlexSplit cmd with
    | .error err => .error err
    | .ok _ => .ok (e.PASS, e, [])
  else
    match shlexSplit cmd with
    | .error err => .error err
    | .ok args =>
      let r := os args
      if r.returncode ≠ 0 then .ok (e.FAIL, { e with RESULT := some r }, [args])
      else .ok (e.PASS, { e with RESULT := some r }, [args])

/-- The errors `run_many_arguments` can surface: a ValueError raised by
`shlex.split` inside `run_one_command`, or the UnboundLocalError hit by
`return result` when the loop body never ran. -/
inductive RunError
| valueError (e : SplitError)
| unboundLocalError
deriving DecidableEq, Repr

/-- The loop of `utilities.run_many_arguments`: for each target, run
`run_one_command` on `cmd.replace(marker, target)`; return as soon as a
run comes back equal to `e.FAIL`; after the loop return the `result` of
the last iteration — which is unbound when `targets` was empty.  `last`
is the value of the `result` variable from the previous iteration (none
before the first), `log` the spawn log accumulated so far. -/
def runManyLoop (os : List String → ProcResult) (cmd marker : String) :
    List String → Environment → Option String → List (List String) →
    Except RunError (String × Environment × List (List String))
| [], _, none, _ => .error .unboundLocalError
| [], e, some v, log => .ok (v, e, log)
| t :: ts, e, _, log =>
  match run_one_command os e (pyReplace cmd marker t) with
  | .error err => .error (.valueError err)
  | .ok (v, e2, log1) =>
    if v = e.FAIL then .ok (v, e2, log ++ log1)
    else runManyLoop os cmd marker ts e2 (some v) (log ++ log1)

/-- `utilities.run_many_arguments` (the default marker in the source is
"TARGET"; the marker is passed explicitly here). -/
def run_many_arguments (os : List String → ProcResult) (e : Environment)
    (cmd : String) (targets : List String) (marker : String) :
    Except RunError (String × Environment × List (List String)) :=
  runManyLoop os cmd marker targets e none []

/-- Forget the final environment of a runner outcome, keeping the
verdict and the spawn log. -/
def runView :
    Except RunError (String × Environment × List (List String)) →
    Except RunError (String × List (List String))
| .error e => .error e
| .ok (v, _, log) => .ok (v, log)

/-- `utilities.min_python_version`, with the host interpreter version
(`sys.version_info.major`, `sys.version_info.minor`) as explicit
parameters.  Note the source compares major and minor independently. -/
def min_python_version (hostMajor hostMinor : Nat) (e : Environment) : Option String :=
  let msg := "Minimum required Python version is " ++ toString e.MAJOR
      ++ "." ++ toString e.MINOR
  if hostMajor < e.MAJOR || hostMinor < e.MINOR then some msg else none

/-- The lexicographic reading of "the host runtime version satisfies the
required (major, minor) minimum", written from the words of the spec. -/
def versionSatisfies (hostMajor hostMinor reqMajor reqMinor : Nat) : Bool :=
  reqMajor < hostMajor || (reqMajor = hostMajor && reqMinor ≤ hostMinor)

/-!
`classes.Labels` (the Label Queue of the spec).
-/

/-- The errors raised while constructing or consuming a `Labels` object:
`valueErrorEmptySeq` models the ValueError raised by `max()` on an empty
sequence when the label list comes out empty (the ConfigurationError of
the spec), `exhaustedListError` models `classes.ExhaustedListError` (the
QueueExhaustedError of the spec). -/
inductive LabelsError
| valueErrorEmptySeq
| exhaustedListError
deriving DecidableEq, Repr

/-- The characters stripped by Python `str.strip()` (the ASCII
whitespace characters; the exotic unicode space characters also stripped
by Python do not occur in any label text of the repository). -/
def isPyWsChar (c : Char) : Bool :=
  c = ' ' || c = tabChar || c = nlChar || c = crChar || c = vtChar || c = ffChar

/-- Python `str.strip()` on a code-point list. -/
def pyStripL (s : List Char) : List Char :=
  ((s.dropWhile isPyWsChar).reverse.dropWhile isPyWsChar).reverse

/-- Python `str.strip()` on a string. -/
def pyStrip (s : String) : String :=
  String.mk (pyStripL s.data)

/-- Python `s.split(c)` for a single separator character: every
occurrence separates, empty parts are kept. -/
def splitOnChar (sep : Char) : List Char → List (List Char)
| [] => [[]]
| c :: cs =>
  if c = sep then [] :: splitOnChar sep cs
  else
    match splitOnChar sep cs with
    | [] => [[c]]
    | l :: ls => (c :: l) :: ls

/-- The lines of a label docstring, as in `s.split(newline)`. -/
def pyLines (s : String) : List String :=
  (splitOnChar nlChar s.data).map String.mk

/-- The list comprehension of `Labels.__init__`: strip every line, keep
the non-empty results. -/
def labelEntries (s : String) : List String :=
  ((pyLines s).map pyStrip).filter (fun t => t != "")

/-- Python `max(iterable, key=len)` over a non-empty list: scan left to
right, replacing the best element only on a strictly longer one (so the
first longest element wins). -/
def pyMaxByLenAux (best : String) : List String → String
| [] => best
| x :: rest => pyMaxByLenAux (if best.length < x.length then x else best) rest

/-- Python `max(labels, key=len)`: none on the empty list (where Python
raises ValueError), otherwise the first longest element. -/
def pyMaxByLen : List String → Option String
| [] => none
| x :: rest => some (pyMaxByLenAux x rest)

/-- `classes.Labels`: the queue of label strings and the padding
width. -/
structure Labels where
  labels : List String
  pad : Nat
deriving DecidableEq, Repr

/-- `Labels.__init__`: split the docstring on newlines, strip each line
and drop the blank ones; the padding is the length of the longest label
plus 3.  On an empty label list the `max()` call raises (modelled as the
`valueErrorEmptySeq` error). -/
def labelsInit (s : String) : Except LabelsError Labels :=
  let ls := labelEntries s
  match pyMaxByLen ls with
  | none => .error .valueErrorEmptySeq
  | some m => .ok ⟨ls, m.length + 3⟩

/-- The text printed for one label by `Labels.next`: the label
left-justified in a field of `pad` dots (the format spec `:.<pad`). -/
def fmtLabel (s : String) (pad : Nat) : String :=
  s ++ String.mk (List.replicate (pad - s.length) '.')

/-- `Labels.next` (the advance() of the spec): raise on an empty queue,
otherwise pop the front label and print it padded.  The value is the
printed text and the queue after the pop. -/
def Labels.next (L : Labels) : Except LabelsError (String × Labels) :=
  match L.labels with
  | [] => .error .exhaustedListError
  | x :: rest => .ok (fmtLabel x L.pad, ⟨rest, L.pad⟩)

/-- `Labels.next` iterated: the list of printed texts and the final
queue, or the first error. -/
def nextTimes : Nat → Labels → Except LabelsError (List String × Labels)
| 0, L => .ok ([], L)
| n + 1, L =>
  match L.next with
  | .error e => .error e
  | .ok (out, L2) =>
    match nextTimes n L2 with
    | .error e => .error e
    | .ok (outs, L3) => .ok (out :: outs, L3)

/-- `Labels.pop_first` (the take_first() of the spec). -/
def Labels.pop_first (L : Labels) : Except LabelsError (String × Labels) :=
  match L.labels with
  | [] => .error .exhaustedListError
  | x :: rest => .ok (x, ⟨rest, L.pad⟩)

/-- `Labels.pop_last` (the take_last() of the spec): raise on an empty
queue, otherwise `labels.pop(-1)`, which removes and returns the last
element. -/
def Labels.pop_last (L : Labels) : Except LabelsError (String × Labels) :=
  match L.labels with
  | [] => .error .exhaustedListError
  | x :: rest =>
    .ok ((x :: rest).getLast (List.cons_ne_nil x rest),
         ⟨(x :: rest).dropLast, L.pad⟩)

/-- Python `list.pop(i)`: a negative index counts from the back; an
index out of range after that adjustment yields none (IndexError). -/
def pyPop (l : List String) (i : Int) : Option (String × List String) :=
  let j : Int := if i < 0 then i + l.length else i
  if j < 0 then none
  else
    match l.drop j.toNat with
    | [] => none
    | x :: rest => some (x, l.take j.toNat ++ rest)

/-- The outcome of `Labels.pop_item`: a popped label and the remaining
queue, the ExhaustedListError raised on an empty queue, or the
`sys.exit(1)` process termination after an IndexError. -/
inductive PopResult
| ok (label : String) (rest : Labels)
| exhausted
| exited
deriving DecidableEq, Repr

/-- `Labels.pop_item` (the take_at() of the spec): raise
ExhaustedListError on an empty queue; otherwise `labels.pop(index)`,
reporting and terminating the process on an IndexError. -/
def Labels.pop_item (L : Labels) (index : Int) : PopResult :=
  if L.labels.length = 0 then .exhausted
  else
    match pyPop L.labels index with
    | some (x, rest) => .ok x ⟨rest, L.pad⟩
    | none => .exited

/-- `Labels.dump`: drop the first `num_labels` labels, a no-op unless
`0 < num_labels ≤ length` (the source also checks that the argument is
an int, which the type already guarantees here). -/
def Labels.dump (L : Labels) (num_labels : Int) : Labels :=
  if num_labels ≤ 0 || L.labels.length < num_labels then L
  else ⟨L.labels.drop num_labels.toNat, L.pad⟩

/-!
Concrete fixtures used to instantiate the theorems: process oracles, a
live and a debug environment, and concrete inputs.
-/

/-- A host on which every command exits 0. -/
def osAllOk : List String → ProcResult := fun _ => ⟨0, "", ""⟩

/-- A host on which every command exits 1. -/
def osFailAll : List String → ProcResult := fun _ => ⟨1, "", ""⟩

/-- A host on which exactly the invocation `cmd b` exits 1. -/
def osFailOnB : List String → ProcResult :=
  fun args => if args = ["cmd", "b"] then ⟨1, "", ""⟩ else ⟨0, "", ""⟩

/-- The freshly constructed environment, in live mode. -/
def envLive : Environment := Environment.init

/-- The environment with the debug (dry-run) flag set, as the scripts do
on the debug option. -/
def envDebug : Environment :=
  ⟨3, 10, Environment.init.PASS, Environment.init.FAIL, true, none⟩

/-- A live environment whose last-result slot already holds a stale
record, to exhibit the overwrite. -/
def envStale : Environment :=
  ⟨3, 10, Environment.init.PASS, Environment.init.FAIL, false, some ⟨7, "old", "old"⟩⟩

/-- A command string with malformed quoting: `echo` followed by an
unclosed single quote (on which `shlex.split` raises ValueError). -/
def badQuoteCmd : String := "echo " ++ String.mk [squoteChar, 'a', 'b', 'c']

/-- The label text of the scenario in the spec. -/
def stepText : String := "  Step One \n\nStep Two\n  "

/-- Decidable equality of Except outcomes, so that closed statements
about runner outcomes can be settled by evaluation. -/
instance {ε α : Type} [DecidableEq ε] [DecidableEq α] : DecidableEq (Except ε α) :=
  fun x y =>
    match x, y with
    | .error a, .error b =>
      match decEq a b with
      | isTrue h => isTrue (by rw [h])
      | isFalse h => isFalse (by intro hc; cases hc; exact h rfl)
    | .error _, .ok _ => isFalse (by intro hc; cases hc)
    | .ok _, .error _ => isFalse (by intro hc; cases hc)
    | .ok a, .ok b =>
      match decEq a b with
      | isTrue h => isTrue (by rw [h])
      | isFalse h => isFalse (by intro hc; cases hc; exact h rfl)

/-!
Theorems.
-/

/-- Helper: what one live-mode run of `run_one_command` computes, for a
command whose tokenization is known. -/
theorem run_one_live_eq (os : List String → ProcResult) (e : Environment)
    (cmd : String) (args : List String) (hdbg : e.DEBUG = false)
    (hsplit : shlexSplit cmd = Except.ok args) :
    run_one_command os e cmd
      = .ok ((if (os args).returncode = 0 then e.PASS else e.FAIL),
             { e with RESULT := some (os args) }, [args]) := by
  unfold run_one_command
  rw [hdbg, hsplit]
  by_cases h : (os args).returncode = 0 <;> simp [h]

/-- Claim C1: in live mode, for a command that tokenizes, run_one never
raises: it returns the PASS glyph exactly when the spawned process exits
with code 0 and the FAIL glyph exactly when it does not, and it stores
the full raw process result in the RESULT slot of the environment,
overwriting whatever was there before. -/
theorem run_one_command_live_verdict (os : List String → ProcResult)
    (e : Environment) (cmd : String) (args : List String)
    (hdbg : e.DEBUG = false) (hpf : e.PASS ≠ e.FAIL)
    (hsplit : shlexSplit cmd = Except.ok args) :
    ∃ v, run_one_command os e cmd
        = .ok (v, { e with RESULT := some (os args) }, [args])
      ∧ (v = e.PASS ↔ (os args).returncode = 0)
      ∧ (v = e.FAIL ↔ (os args).returncode ≠ 0) := by
  refine ⟨if (os args).returncode = 0 then e.PASS else e.FAIL,
    run_one_live_eq os e cmd args hdbg hsplit, ?_, ?_⟩
  · by_cases h : (os args).returncode = 0 <;> simp [h, hpf, Ne.symm hpf]
  · by_cases h : (os args).returncode = 0 <;> simp [h, hpf, Ne.symm hpf]

/-- Witness for C1, on a host where `true` exits 0 and an environment
holding a stale previous result. -/
theorem run_one_command_live_verdict_witness :
    run_one_command osAllOk envStale "true"
      = .ok (envStale.PASS, { envStale with RESULT := some ⟨0, "", ""⟩ },
             [["true"]]) := by
  obtain ⟨v, hv, hiff, _⟩ :=
    run_one_command_live_verdict osAllOk envStale "true" ["true"]
      rfl (by decide) rfl
  have hvp : v = envStale.PASS := hiff.mpr rfl
  rw [hvp] at hv
  exact hv

/-- Claim C3 counterexample: in dry-run mode, on the command string with
an unclosed single quote the trace print still evaluates
`shlex.split(cmd)`, so `run_one_command` raises ValueError instead of
returning the Success glyph. -/
theorem run_one_command_dry_invalid_counterexample :
    run_one_command osAllOk envDebug badQuoteCmd
      = Except.error SplitError.noClosingQuotation := by decide

/-- Claim C3 (amended): in dry-run mode run_one never consults the
process oracle (the spawn log is empty and the outcome is the same on
every host); for every command string that tokenizes it returns the
Success glyph with the environment untouched, while for a command whose
tokenization fails the ValueError of `shlex.split` propagates. -/
theorem run_one_command_dry_run (os os2 : List String → ProcResult)
    (e : Environment) (cmd : String) (hdbg : e.DEBUG = true) :
    (∀ args, shlexSplit cmd = Except.ok args →
        run_one_command os e cmd = .ok (e.PASS, e, []))
    ∧ (∀ err, shlexSplit cmd = Except.error err →
        run_one_command os e cmd = .error err)
    ∧ run_one_command os e cmd = run_one_command os2 e cmd := by
  refine ⟨?_, ?_, ?_⟩
  · intro args h
    simp [run_one_command, hdbg, h]
  · intro err h
    simp [run_one_command, hdbg, h]
  · simp [run_one_command, hdbg]

/-- Witness for C3 (amended), in the debug environment on two different
hosts. -/
theorem run_one_command_dry_run_witness :
    run_one_command osAllOk envDebug "true" = .ok (envDebug.PASS, envDebug, [])
    ∧ run_one_command osAllOk envDebug "true"
        = run_one_command osFailAll envDebug "true" := by
  have h := run_one_command_dry_run osAllOk osFailAll envDebug "true" rfl
  exact ⟨h.1 ["true"] rfl, h.2.2⟩

/-- Claim C5 counterexample: on an empty target list run_many raises
UnboundLocalError (the `result` variable of the loop is never assigned
when `return result` runs); it neither raises a ConfigurationError nor
returns a Failure verdict. -/
theorem run_many_empty_counterexample :
    run_many_arguments osAllOk envLive "echo TARGET" [] "TARGET"
      = Except.error RunError.unboundLocalError := rfl

/-- Claim C5 (amended): run_many with an empty values list produces no
verdict at all: on every host, environment, template and marker it
raises UnboundLocalError, because the loop body never assigns the
variable returned after the loop. -/
theorem run_many_arguments_empty_unbound (os : List String → ProcResult)
    (e : Environment) (cmd marker : String) :
    run_many_arguments os e cmd [] marker
      = Except.error RunError.unboundLocalError := rfl

/-- Helper: the loop of run_many on a non-empty target list all of whose
invocations exit 0 runs every target once, in order, and ends returning
the PASS glyph. -/
theorem runManyLoop_all_ok (os : List String → ProcResult) (cmd marker : String)
    (f : String → List String) :
    ∀ (ts : List String) (e : Environment) (v0 : Option String)
      (log : List (List String)),
      ts ≠ [] → e.DEBUG = false → e.PASS ≠ e.FAIL →
      (∀ t ∈ ts, shlexSplit (pyReplace cmd marker t) = Except.ok (f t)) →
      (∀ t ∈ ts, (os (f t)).returncode = 0) →
      ∃ e2, runManyLoop os cmd marker ts e v0 log
          = .ok (e.PASS, e2, log ++ ts.map f) := by
  intro ts
  induction ts with
  | nil => intro e v0 log hne; exact absurd rfl hne
  | cons t ts ih =>
    intro e v0 log _ hdbg hpf hsplit hok
    have hsp := hsplit t (List.mem_cons_self t ts)
    have hrc : (os (f t)).returncode = 0 := hok t (List.mem_cons_self t ts)
    have h1 := run_one_live_eq os e (pyReplace cmd marker t) (f t) hdbg hsp
    rw [if_pos hrc] at h1
    by_cases hts : ts = []
    · subst hts
      refine ⟨{ e with RESULT := some (os (f t)) }, ?_⟩
      simp [runManyLoop, h1, hpf]
    · obtain ⟨e3, h3⟩ := ih { e with RESULT := some (os (f t)) } (some e.PASS)
        (log ++ [f t]) hts hdbg hpf
        (fun u hu => hsplit u (List.mem_cons_of_mem t hu))
        (fun u hu => hok u (List.mem_cons_of_mem t hu))
      refine ⟨e3, ?_⟩
      simp only [runManyLoop, h1]
      rw [if_neg hpf, h3]
      simp [List.append_assoc]

/-- Helper: the loop of run_many stops at the first target whose
invocation exits non-zero, having invoked exactly the preceding targets
and that one, and returns the FAIL glyph. -/
theorem runManyLoop_first_fail (os : List String → ProcResult)
    (cmd marker : String) (f : String → List String) (b : String)
    (rest : List String) :
    ∀ (pre : List String) (e : Environment) (v0 : Option String)
      (log : List (List String)),
      e.DEBUG = false → e.PASS ≠ e.FAIL →
      (∀ t ∈ pre, shlexSplit (pyReplace cmd marker t) = Except.ok (f t)) →
      shlexSplit (pyReplace cmd marker b) = Except.ok (f b) →
      (∀ t ∈ pre, (os (f t)).returncode = 0) →
      (os (f b)).returncode ≠ 0 →
      ∃ e2, runManyLoop os cmd marker (pre ++ b :: rest) e v0 log
          = .ok (e.FAIL, e2, log ++ pre.map f ++ [f b]) := by
  intro pre
  induction pre with
  | nil =>
    intro e v0 log hdbg hpf _ hbsplit _ hbrc
    have h1 := run_one_live_eq os e (pyReplace cmd marker b) (f b) hdbg hbsplit
    rw [if_neg hbrc] at h1
    refine ⟨{ e with RESULT := some (os (f b)) }, ?_⟩
    simp [runManyLoop, h1]
  | cons t pre ih =>
    intro e v0 log hdbg hpf hsplit hbsplit hok hbrc
    have hsp := hsplit t (List.mem_cons_self t pre)
    have hrc : (os (f t)).returncode = 0 := hok t (List.mem_cons_self t pre)
    have h1 := run_one_live_eq os e (pyReplace cmd marker t) (f t) hdbg hsp
    rw [if_pos hrc] at h1
    obtain ⟨e3, h3⟩ := ih { e with RESULT := some (os (f t)) } (some e.PASS)
      (log ++ [f t]) hdbg hpf
      (fun u hu => hsplit u (List.mem_cons_of_mem t hu)) hbsplit
      (fun u hu => hok u (List.mem_cons_of_mem t hu)) hbrc
    refine ⟨e3, ?_⟩
    simp only [List.cons_append, runManyLoop, h1, List.append_eq]
    rw [if_neg hpf, h3]
    simp [List.append_assoc]

/-- Claim C2: in live mode, over targets that all tokenize, run_many
invokes the substituted command once per target in list order: when
every invocation exits 0 the spawn log covers every target exactly once,
in order, and the verdict is the PASS glyph; when the list splits as
`pre ++ b :: rest` with every target of `pre` exiting 0 and `b` exiting
non-zero, the spawn log covers exactly `pre` and then `b` — the targets
of `rest` are never invoked — and the verdict is the FAIL glyph. -/
theorem run_many_arguments_short_circuit (os : List String → ProcResult)
    (e : Environment) (cmd marker : String) (ts : List String)
    (f : String → List String) (hdbg : e.DEBUG = false)
    (hpf : e.PASS ≠ e.FAIL)
    (hsplit : ∀ t ∈ ts, shlexSplit (pyReplace cmd marker t) = Except.ok (f t)) :
    (ts ≠ [] → (∀ t ∈ ts, (os (f t)).returncode = 0) →
      runView (run_many_arguments os e cmd ts marker)
        = .ok (e.PASS, ts.map f))
    ∧ (∀ pre b rest, ts = pre ++ b :: rest →
        (∀ t ∈ pre, (os (f t)).returncode = 0) →
        (os (f b)).returncode ≠ 0 →
        runView (run_many_arguments os e cmd ts marker)
          = .ok (e.FAIL, pre.map f ++ [f b])) := by
  constructor
  · intro hne hok
    obtain ⟨e2, h⟩ := runManyLoop_all_ok os cmd marker f ts e none []
      hne hdbg hpf hsplit hok
    simp [run_many_arguments, h, runView]
  · intro pre b rest hts hok hbrc
    subst hts
    obtain ⟨e2, h⟩ := runManyLoop_first_fail os cmd marker f b rest pre e none []
      hdbg hpf
      (fun t ht => hsplit t (List.mem_append_left _ ht))
      (hsplit b (List.mem_append_right _ (List.mem_cons_self b rest)))
      hok hbrc
    simp [run_many_arguments, h, runView]

/-- Witness for C2: template `cmd TARGET` over targets a, b, c on a host
failing exactly on `cmd b` invokes `cmd a` then `cmd b`, never `cmd c`,
and returns the FAIL glyph. -/
theorem run_many_arguments_short_circuit_witness :
    runView (run_many_arguments osFailOnB envLive "cmd TARGET"
      ["a", "b", "c"] "TARGET")
      = .ok (envLive.FAIL, [["cmd", "a"], ["cmd", "b"]]) := by
  have h := (run_many_arguments_short_circuit osFailOnB envLive "cmd TARGET"
      "TARGET" ["a", "b", "c"] (fun t => ["cmd", t]) rfl (by decide)
      (by intro t ht
          simp only [List.mem_cons, List.not_mem_nil, or_false] at ht
          rcases ht with rfl | rfl | rfl <;> rfl)).2
      ["a"] "b" ["c"] rfl
      (by intro t ht
          simp only [List.mem_cons, List.not_mem_nil, or_false] at ht
          rcases ht with rfl
          decide)
      (by decide)
  exact h

/-- Claim C4 counterexample: with the marker occurring twice in the
template, the single-target run invokes the command with BOTH
occurrences substituted: the spawned argument vector is
`[echo, x, x]`, not the `[echo, x, TARGET]` that substituting only the
first occurrence would produce. -/
theorem run_many_replace_counterexample :
    runView (run_many_arguments osAllOk envLive "echo TARGET TARGET"
      ["x"] "TARGET")
      = Except.ok (envLive.PASS, [["echo", "x", "x"]])
    ∧ pyReplace "echo TARGET TARGET" "TARGET" "x" = "echo x x"
    ∧ ("echo x x" : String) ≠ "echo x TARGET" := by decide

/-- Helper: on the two-marker template, the replace of Python rewrites
both occurrences, whatever the replacement list is. -/
theorem pyReplaceL_echo (r : List Char) :
    pyReplaceL ("echo TARGET TARGET".data) ("TARGET".data) r
      = "echo ".data ++ (r ++ (' ' :: (r ++ []))) := rfl

/-- Helper: the string form of `pyReplaceL_echo`. -/
theorem pyReplace_echo (x : String) :
    pyReplace "echo TARGET TARGET" "TARGET" x = "echo " ++ x ++ " " ++ x := by
  obtain ⟨l⟩ := x
  show String.mk (pyReplaceL ("echo TARGET TARGET".data) ("TARGET".data) l) = _
  apply congrArg String.mk
  rw [pyReplaceL_echo l]
  have hsp : " ".data = [' '] := rfl
  simp [hsp, List.append_assoc]

/-- Claim C4 (amended): on each per-value invocation run_many passes
`run_one` the template with EVERY occurrence of the marker replaced by
the value (the replace of Python: all non-overlapping occurrences, left
to right), not only the first one; in particular on the template
`echo TARGET TARGET` every value `x` yields the command
`echo x x`. -/
theorem run_many_substitutes_every_occurrence (os : List String → ProcResult)
    (e : Environment) (cmd marker t : String) (v : String) (e2 : Environment)
    (log : List (List String)) (x : String)
    (h : run_one_command os e (pyReplace cmd marker t) = Except.ok (v, e2, log)) :
    run_many_arguments os e cmd [t] marker = Except.ok (v, e2, log)
    ∧ pyReplace "echo TARGET TARGET" "TARGET" x = "echo " ++ x ++ " " ++ x := by
  constructor
  · simp only [run_many_arguments, runManyLoop, h]
    by_cases hv : v = e.FAIL <;> simp [hv, runManyLoop]
  · exact pyReplace_echo x

/-- Witness for C4: target y on the two-marker template. -/
theorem run_many_substitutes_every_occurrence_witness :
    run_many_arguments osAllOk envLive "echo TARGET TARGET" ["y"] "TARGET"
      = Except.ok (envLive.PASS,
          { envLive with RESULT := some ⟨0, "", ""⟩ }, [["echo", "y", "y"]])
    ∧ pyReplace "echo TARGET TARGET" "TARGET" "y" = "echo y y" := by
  have h := run_many_substitutes_every_occurrence osAllOk envLive
    "echo TARGET TARGET" "TARGET" "y" envLive.PASS
    { envLive with RESULT := some ⟨0, "", ""⟩ } [["echo", "y", "y"]] "y"
    (by decide)
  refine ⟨h.1, ?_⟩
  rw [h.2]
  decide

/-- Helper: a fold of max commutes with an element merged into its
initial value. -/
theorem foldr_max_merge (l : List Nat) :
    ∀ a b : Nat, l.foldr max (max a b) = max a (l.foldr max b) := by
  induction l with
  | nil => intro a b; rfl
  | cons c cs ih =>
    intro a b
    simp only [List.foldr_cons, ih a b]
    exact max_left_comm c a (cs.foldr max b)

/-- Helper: the length of the element picked by the max-by-len scan of
Python is the maximum of the lengths seen. -/
theorem pyMaxByLenAux_length (ls : List String) :
    ∀ best : String, (pyMaxByLenAux best ls).length
      = (ls.map String.length).foldr max best.length := by
  induction ls with
  | nil => intro best; rfl
  | cons x rest ih =>
    intro best
    simp only [pyMaxByLenAux, List.map_cons, List.foldr_cons]
    rw [ih]
    have hlen : (if best.length < x.length then x else best).length
        = max x.length best.length := by
      rcases Nat.lt_or_ge best.length x.length with h | h
      · rw [if_pos h]
        exact (Nat.max_eq_left (Nat.le_of_lt h)).symm
      · rw [if_neg (Nat.not_lt.mpr h)]
        exact (Nat.max_eq_right h).symm
    rw [hlen, ← foldr_max_merge]

/-- Claim C6: constructing Labels from a text with at least one
non-blank line (so that construction returns a queue) yields exactly the
non-blank stripped lines, with the padding equal to the longest label
length plus 3; in particular the scenario text yields the queue
`Step One`, `Step Two` with padding 11. -/
theorem labels_init_size_pad (s : String) (L : Labels)
    (h : labelsInit s = Except.ok L) :
    L.labels.length = (labelEntries s).length
    ∧ L.pad = ((labelEntries s).map String.length).foldr max 0 + 3
    ∧ labelsInit stepText = Except.ok ⟨["Step One", "Step Two"], 11⟩ := by
  have key : L.labels = labelEntries s
      ∧ L.pad = ((labelEntries s).map String.length).foldr max 0 + 3 := by
    unfold labelsInit at h
    cases hls : labelEntries s with
    | nil =>
      rw [hls] at h
      simp [pyMaxByLen] at h
    | cons x rest =>
      rw [hls] at h
      simp only [pyMaxByLen, Except.ok.injEq] at h
      cases h
      refine ⟨rfl, ?_⟩
      have hm := foldr_max_merge (rest.map String.length) x.length 0
      simp only [Nat.max_zero] at hm
      simp only [List.map_cons, List.foldr_cons]
      rw [pyMaxByLenAux_length, hm]
  exact ⟨by rw [key.1], key.2, by decide⟩

/-- Witness for C6, on the scenario text of the spec. -/
theorem labels_init_size_pad_witness :
    labelsInit stepText = Except.ok ⟨["Step One", "Step Two"], 11⟩ :=
  (labels_init_size_pad stepText ⟨["Step One", "Step Two"], 11⟩
    (by decide)).2.2

/-- Helper: one unfolding step of `nextTimes`. -/
theorem nextTimes_succ (n : Nat) (L : Labels) :
    nextTimes (n + 1) L
      = match L.next with
        | .error e => .error e
        | .ok (out, L2) =>
          match nextTimes n L2 with
          | .error e => .error e
          | .ok (outs, L3) => .ok (out :: outs, L3) := rfl

/-- Claim C7: on a queue of size N, N calls of next pop and print the
labels front to back (each padded with dots to the fixed width) and
leave the queue empty; the next call after that raises
ExhaustedListError. -/
theorem labels_next_drain (L : Labels) (N : Nat) (h : L.labels.length = N) :
    nextTimes N L
      = Except.ok (L.labels.map (fun x => fmtLabel x L.pad), ⟨[], L.pad⟩)
    ∧ nextTimes (N + 1) L = Except.error LabelsError.exhaustedListError := by
  obtain ⟨ls, pad⟩ := L
  subst h
  show nextTimes ls.length ⟨ls, pad⟩
      = Except.ok (ls.map (fun x => fmtLabel x pad), ⟨[], pad⟩)
    ∧ nextTimes (ls.length + 1) ⟨ls, pad⟩
      = Except.error LabelsError.exhaustedListError
  induction ls with
  | nil => exact ⟨rfl, rfl⟩
  | cons x rest ih =>
    have hstep : Labels.next ⟨x :: rest, pad⟩
        = Except.ok (fmtLabel x pad, ⟨rest, pad⟩) := rfl
    constructor
    · show nextTimes (rest.length + 1) ⟨x :: rest, pad⟩ = _
      rw [nextTimes_succ, hstep]
      simp only [ih.1, List.map_cons]
    · show nextTimes (rest.length + 1 + 1) ⟨x :: rest, pad⟩ = _
      rw [nextTimes_succ, hstep]
      simp only [ih.2]

/-- Witness for C7, on a queue of two labels with padding 5. -/
theorem labels_next_drain_witness :
    nextTimes 2 ⟨["a", "bb"], 5⟩
      = Except.ok (["a....", "bb..."], (⟨[], 5⟩ : Labels))
    ∧ nextTimes 3 ⟨["a", "bb"], 5⟩
      = Except.error LabelsError.exhaustedListError := by
  have h := labels_next_drain ⟨["a", "bb"], 5⟩ 2 rfl
  refine ⟨?_, h.2⟩
  rw [h.1]
  decide

/-- Claim C8: constructing Labels from a text all of whose lines strip
to nothing (empty text or whitespace-only lines) fails: the `max()` call
of the initializer raises on the empty label list (the
ConfigurationError of the spec). -/
theorem labels_init_empty_error (s : String)
    (h : ∀ l ∈ pyLines s, pyStrip l = "") :
    labelsInit s = Except.error LabelsError.valueErrorEmptySeq := by
  have hle : labelEntries s = [] := by
    unfold labelEntries
    rw [List.filter_eq_nil_iff]
    intro t ht
    simp only [List.mem_map] at ht
    obtain ⟨l, hl, rfl⟩ := ht
    simp [h l hl]
  unfold labelsInit
  rw [hle]
  rfl

/-- Witness for C8, on a text of blank and whitespace-only lines. -/
theorem labels_init_empty_error_witness :
    labelsInit "  \n\n \t" = Except.error LabelsError.valueErrorEmptySeq :=
  labels_init_empty_error "  \n\n \t" (by decide)

/-- Claim C9 (code-bug evaluation): the host version (4, 0) satisfies
the required (3, 10) minimum lexicographically, yet `min_python_version`
returns the error message, because the source compares the minor
numbers independently of the majors; the three scenario cases of the
claim themselves come out as claimed. -/
theorem min_python_version_bug_eval :
    versionSatisfies 4 0 3 10 = true
    ∧ min_python_version 4 0 Environment.init
        = some "Minimum required Python version is 3.10"
    ∧ min_python_version 3 9 Environment.init
        = some "Minimum required Python version is 3.10"
    ∧ min_python_version 3 10 Environment.init = none
    ∧ min_python_version 3 11 Environment.init = none := by decide

/-- Helper: dropping all but one element of a non-empty list leaves
exactly its last element. -/
theorem drop_length_sub_one_eq {α : Type} :
    ∀ (l : List α) (h : l ≠ []), l.drop (l.length - 1) = [l.getLast h]
  | [_], _ => rfl
  | x :: y :: rs, _ => by
    have ih := drop_length_sub_one_eq (y :: rs) (List.cons_ne_nil y rs)
    rw [List.getLast_cons (List.cons_ne_nil y rs)]
    simp only [List.length_cons, Nat.add_sub_cancel, List.drop_succ_cons] at ih ⊢
    exact ih

/-- Claim C10: on a non-empty queue, pop_item with a negative index
succeeds whenever the magnitude of the index does not exceed the queue
length — in particular pop_item (-1) removes and returns the last label,
with exactly the outcome of pop_last — and terminates the process (the
IndexError branch) exactly when the magnitude exceeds the length. -/
theorem pop_item_negative_index (L : Labels) (i : Int)
    (h : L.labels ≠ []) (hi : i < 0) :
    (0 ≤ i + L.labels.length → ∃ x rest, L.pop_item i = PopResult.ok x rest)
    ∧ ((L.labels.length : Int) < -i → L.pop_item i = PopResult.exited)
    ∧ L.pop_item (-1)
        = PopResult.ok (L.labels.getLast h) ⟨L.labels.dropLast, L.pad⟩
    ∧ L.pop_last
        = Except.ok (L.labels.getLast h, ⟨L.labels.dropLast, L.pad⟩) := by
  have hlen : L.labels.length ≠ 0 := fun h0 => h (List.eq_nil_of_length_eq_zero h0)
  refine ⟨?_, ?_, ?_, ?_⟩
  · intro hge
    unfold Labels.pop_item pyPop
    rw [if_neg hlen, if_pos hi, if_neg (Int.not_lt.mpr hge)]
    have hlt : (i + L.labels.length).toNat < L.labels.length := by omega
    cases hd : L.labels.drop (i + L.labels.length).toNat with
    | nil =>
      have := List.drop_eq_nil_iff.mp hd
      omega
    | cons x rs => exact ⟨x, _, rfl⟩
  · intro hgt
    unfold Labels.pop_item pyPop
    rw [if_neg hlen, if_pos hi, if_pos (by omega : i + (L.labels.length : Int) < 0)]
  · unfold Labels.pop_item pyPop
    rw [if_neg hlen, if_pos (by omega : (-1 : Int) < 0)]
    rw [if_neg (by omega : ¬ (-1 + (L.labels.length : Int) < 0))]
    have htn : (-1 + (L.labels.length : Int)).toNat = L.labels.length - 1 := by
      omega
    rw [htn, drop_length_sub_one_eq L.labels h]
    simp only [List.append_nil, ← List.dropLast_eq_take]
  · obtain ⟨ls, pad⟩ := L
    cases ls with
    | nil => exact absurd rfl h
    | cons x rest => rfl

/-- Witness for C10, on the queue a, b, c with padding 6 and index -1. -/
theorem pop_item_negative_index_witness :
    Labels.pop_item ⟨["a", "b", "c"], 6⟩ (-1)
      = PopResult.ok "c" ⟨["a", "b"], 6⟩
    ∧ Labels.pop_last ⟨["a", "b", "c"], 6⟩
      = Except.ok ("c", ⟨["a", "b"], 6⟩) := by
  have h := pop_item_negative_index ⟨["a", "b", "c"], 6⟩ (-1)
    (by decide) (by decide)
  exact ⟨h.2.2.1, h.2.2.2⟩
